import Mathlib

/-!
Verification of the zustic repository against its specification.

The repository is the documentation site of the zustic state-management
library.  Two kinds of code are verified here:

* the interactive query-builder page (`src/src/pages/query-builder.tsx`,
  mirrored in `src/unnamed/part_001`), whose pure helpers
  (`deleteEndpoint`, `generateQueryCode`) are embedded directly; and
* concrete middleware examples shipped in the docs
  (`src/unnamed/part_003`), notably `deduplicationMiddleware`, embedded
  as an explicit state machine.

The store/query engine itself (`create`, `createApi`) is not part of the
repository; the definitions in the "engine model" sections below are
modelled from the specification text and are marked as such.
-/

/-! ## Query-builder page: data model (src/unnamed/part_001) -/

/-- HTTP method of a declared endpoint (`QueryEndpoint.method` in
`src/unnamed/part_001`). -/
inductive Method where
  | GET
  | POST
  | PUT
  | DELETE
deriving DecidableEq

/-- Source text of a method, as interpolated into the generated code. -/
def methodStr : Method → String
  | Method.GET => "GET"
  | Method.POST => "POST"
  | Method.PUT => "PUT"
  | Method.DELETE => "DELETE"

/-- One declared endpoint of the query-builder page.  `objId` models
JavaScript object identity: the page compares endpoints with `===`
(reference equality), so two separately created endpoints are distinct
even when all visible fields coincide.  -/
structure QueryEndpoint where
  objId : Nat
  name : String
  method : Method
  url : String
deriving DecidableEq

/-- Type tag of a query parameter row (`QueryParam.type` in the source). -/
inductive ParamType where
  | string
  | number
  | boolean
deriving DecidableEq

/-- One query-parameter row of the builder form. -/
structure QueryParam where
  key : String
  value : String
  ptype : ParamType
deriving DecidableEq

/-- The React state of the query-builder page that its pure helpers read:
`endpoints`, `selectedEndpoint`, `queryParams` and `requestBody`. -/
structure BuilderState where
  endpoints : List QueryEndpoint
  selectedEndpoint : Option QueryEndpoint
  queryParams : List QueryParam
  requestBody : String
deriving DecidableEq

/-- `deleteEndpoint` (src/unnamed/part_001 lines 47–53).  The source
removes the element at `index` with `endpoints.filter((_, i) => i !== index)`
(the same operation as `List.eraseIdx`, a no-op out of range) and, when the
deleted element was the selected one (`===`) and the remaining list is
non-empty, moves the selection to the new first element; otherwise the
selection is left untouched. -/
def deleteEndpoint (st : BuilderState) (index : Nat) : BuilderState :=
  let updated := st.endpoints.eraseIdx index
  let sel :=
    match st.endpoints[index]? with
    | some e =>
        if st.selectedEndpoint = some e ∧ 0 < updated.length then
          updated[0]?
        else st.selectedEndpoint
    | none => st.selectedEndpoint
  { st with endpoints := updated, selectedEndpoint := sel }

/-- Replace every maximal run of whitespace by a single underscore,
the effect of `name.replace(/\s+/g, "_")`.  The flag records whether the
previous character belonged to a whitespace run. -/
def replaceWsAux : List Char → Bool → List Char
  | [], _ => []
  | c :: cs, inWs =>
      if c.isWhitespace then
        (if inWs then [] else ['_']) ++ replaceWsAux cs true
      else
        c :: replaceWsAux cs false

/-- `endpointName` (src/unnamed/part_001 line 61):
`selectedEndpoint.name.replace(/\s+/g, "_").toLowerCase()`. -/
def endpointNameOf (ep : QueryEndpoint) : String :=
  (String.mk (replaceWsAux ep.name.toList false)).toLower

/-- `endpointName.charAt(0).toUpperCase() + endpointName.slice(1)`
(src/unnamed/part_001 lines 124 and 126). -/
def capitalizeFirst (s : String) : String :=
  match s.toList with
  | [] => ""
  | c :: cs => String.mk (c.toUpper :: cs)

/-- `generateQueryCode` (src/unnamed/part_001 lines 55–131), chunk for
chunk.  Literal braces of the generated JavaScript are written `\x7b`,
`\x7d`, and literal single quotes `\x27`. -/
def generateQueryCode (st : BuilderState) : String :=
  match st.selectedEndpoint with
  | none => ""
  | some ep =>
    let hasBody := st.requestBody.trim
    let paramEntries := st.queryParams.filter (fun p => p.value ≠ "")
    let isQuery : Bool := ep.method == Method.GET
    let endpointName := endpointNameOf ep
    let queryString :=
      if !paramEntries.isEmpty && isQuery then
        String.intercalate "&"
          (paramEntries.map (fun p => p.key ++ "=$\x7b" ++ p.key ++ "\x7d"))
      else ""
    let queryUrl := ep.url ++ (if queryString = "" then "" else "?" ++ queryString)
    let code := "const api = createApi(\x7b\n"
    let code := code ++ "  baseQuery: async (params) => \x7b\n"
    let code := code ++ "    // Your base query logic here\n"
    let code := code ++ "  \x7d,\n"
    let code := code ++ "  endpoints(builder) \x7b\n"
    let code := code ++ "    return \x7b\n"
    let code :=
      if isQuery then
        code ++ "      " ++ endpointName ++ ": builder.query<any, any>(\x7b\n"
          ++ "        query: (arg) => (\x7b\n"
          ++ "          method: \x27" ++ methodStr ep.method ++ "\x27,\n"
          ++ "          url: `" ++ queryUrl ++ "`,\n"
          ++ "        \x7d),\n"
          ++ "        onSuccess(data) \x7b\n"
          ++ "          console.log(data);\n"
          ++ "        \x7d,\n"
          ++ "        onError(err) \x7b\n"
          ++ "          console.error(err);\n"
          ++ "        \x7d,\n"
          ++ "      \x7d),\n"
      else
        code ++ "      " ++ endpointName ++ ": builder.mutation<any, any>(\x7b\n"
          ++ "        query: (arg) => (\x7b\n"
          ++ "          url: \x27" ++ ep.url ++ "\x27,\n"
          ++ "          method: \x27" ++ methodStr ep.method ++ "\x27,\n"
          ++ (if hasBody ≠ "" then
                "          body: \x7b...arg\x7d,\n"
                  ++ "          headers: \x7b\n"
                  ++ "            \x27Content-type\x27: \x27application/json; charset=UTF-8\x27,\n"
                  ++ "          \x7d,\n"
              else "")
          ++ "        \x7d),\n"
          ++ "        onSuccess(data) \x7b\n"
          ++ "          console.log(data);\n"
          ++ "        \x7d,\n"
          ++ "        onError(err) \x7b\n"
          ++ "          console.error(err);\n"
          ++ "        \x7d,\n"
          ++ "      \x7d),\n"
    let code := code ++ "    \x7d\n"
    let code := code ++ "  \x7d,\n"
    let code := code ++ "\x7d)\n\n"
    let code := code ++ "const \x7b\n"
    let code :=
      if isQuery then
        code ++ "  use" ++ capitalizeFirst endpointName ++ "Query,\n"
      else
        code ++ "  use" ++ capitalizeFirst endpointName ++ "Mutation,\n"
    code ++ "\x7d = api"

/-! ## Query-builder page: specification-side templates for C9 -/

/-- The code `generateQueryCode` emits for a GET endpoint: a
`builder.query` definition whose URL is `u`, with no body and no headers. -/
def queryCodeFor (n m u : String) : String :=
  "const api = createApi(\x7b\n"
    ++ "  baseQuery: async (params) => \x7b\n"
    ++ "    // Your base query logic here\n"
    ++ "  \x7d,\n"
    ++ "  endpoints(builder) \x7b\n"
    ++ "    return \x7b\n"
    ++ "      " ++ n ++ ": builder.query<any, any>(\x7b\n"
    ++ "        query: (arg) => (\x7b\n"
    ++ "          method: \x27" ++ m ++ "\x27,\n"
    ++ "          url: `" ++ u ++ "`,\n"
    ++ "        \x7d),\n"
    ++ "        onSuccess(data) \x7b\n"
    ++ "          console.log(data);\n"
    ++ "        \x7d,\n"
    ++ "        onError(err) \x7b\n"
    ++ "          console.error(err);\n"
    ++ "        \x7d,\n"
    ++ "      \x7d),\n"
    ++ "    \x7d\n"
    ++ "  \x7d,\n"
    ++ "\x7d)\n\n"
    ++ "const \x7b\n"
    ++ "  use" ++ capitalizeFirst n ++ "Query,\n"
    ++ "\x7d = api"

/-- The code emitted for a non-GET endpoint with an empty (trimmed)
request body: a `builder.mutation` definition with no body spread and no
Content-type header, and no query parameters anywhere. -/
def mutationCodeNoBody (n m u : String) : String :=
  "const api = createApi(\x7b\n"
    ++ "  baseQuery: async (params) => \x7b\n"
    ++ "    // Your base query logic here\n"
    ++ "  \x7d,\n"
    ++ "  endpoints(builder) \x7b\n"
    ++ "    return \x7b\n"
    ++ "      " ++ n ++ ": builder.mutation<any, any>(\x7b\n"
    ++ "        query: (arg) => (\x7b\n"
    ++ "          url: \x27" ++ u ++ "\x27,\n"
    ++ "          method: \x27" ++ m ++ "\x27,\n"
    ++ "        \x7d),\n"
    ++ "        onSuccess(data) \x7b\n"
    ++ "          console.log(data);\n"
    ++ "        \x7d,\n"
    ++ "        onError(err) \x7b\n"
    ++ "          console.error(err);\n"
    ++ "        \x7d,\n"
    ++ "      \x7d),\n"
    ++ "    \x7d\n"
    ++ "  \x7d,\n"
    ++ "\x7d)\n\n"
    ++ "const \x7b\n"
    ++ "  use" ++ capitalizeFirst n ++ "Mutation,\n"
    ++ "\x7d = api"

/-- The code emitted for a non-GET endpoint with a non-empty (trimmed)
request body: as `mutationCodeNoBody` plus the body spread and the JSON
Content-type header. -/
def mutationCodeWithBody (n m u : String) : String :=
  "const api = createApi(\x7b\n"
    ++ "  baseQuery: async (params) => \x7b\n"
    ++ "    // Your base query logic here\n"
    ++ "  \x7d,\n"
    ++ "  endpoints(builder) \x7b\n"
    ++ "    return \x7b\n"
    ++ "      " ++ n ++ ": builder.mutation<any, any>(\x7b\n"
    ++ "        query: (arg) => (\x7b\n"
    ++ "          url: \x27" ++ u ++ "\x27,\n"
    ++ "          method: \x27" ++ m ++ "\x27,\n"
    ++ ("          body: \x7b...arg\x7d,\n"
          ++ "          headers: \x7b\n"
          ++ "            \x27Content-type\x27: \x27application/json; charset=UTF-8\x27,\n"
          ++ "          \x7d,\n")
    ++ "        \x7d),\n"
    ++ "        onSuccess(data) \x7b\n"
    ++ "          console.log(data);\n"
    ++ "        \x7d,\n"
    ++ "        onError(err) \x7b\n"
    ++ "          console.error(err);\n"
    ++ "        \x7d,\n"
    ++ "      \x7d),\n"
    ++ "    \x7d\n"
    ++ "  \x7d,\n"
    ++ "\x7d)\n\n"
    ++ "const \x7b\n"
    ++ "  use" ++ capitalizeFirst n ++ "Mutation,\n"
    ++ "\x7d = api"

/-- The accumulator of `String.intercalate.go` is a prefix of its result,
so its length never shrinks. -/
theorem length_le_intercalate_go (s : String) :
    ∀ (l : List String) (acc : String),
      acc.length ≤ (String.intercalate.go acc s l).length := by
  intro l
  induction l with
  | nil => intro acc; simp [String.intercalate.go]
  | cons a as ih =>
      intro acc
      calc acc.length ≤ (acc ++ s ++ a).length := by
            simp [String.length_append]
            omega
        _ ≤ (String.intercalate.go (acc ++ s ++ a) s as).length := ih _

/-- The query string built from a non-empty list of parameter rows is
non-empty: its first fragment `key=$\x7bkey\x7d` has length at least 4. -/
theorem queryString_ne_empty (ps : List QueryParam) (h : ps ≠ []) :
    String.intercalate "&"
      (ps.map (fun p => p.key ++ "=$\x7b" ++ p.key ++ "\x7d")) ≠ "" := by
  match ps, h with
  | p :: rest, _ =>
    intro hcontra
    have hlen :
        (p.key ++ "=$\x7b" ++ p.key ++ "\x7d").length ≤
          (String.intercalate "&"
            ((p :: rest).map (fun q => q.key ++ "=$\x7b" ++ q.key ++ "\x7d"))).length := by
      simpa [String.intercalate] using
        length_le_intercalate_go "&"
          (rest.map (fun q => q.key ++ "=$\x7b" ++ q.key ++ "\x7d"))
          (p.key ++ "=$\x7b" ++ p.key ++ "\x7d")
    rw [hcontra] at hlen
    simp [String.length_append] at hlen
    exact absurd hlen.1.1.2 (by decide)

theorem gen_GET_noParams (st : BuilderState) (ep : QueryEndpoint)
    (hsel : st.selectedEndpoint = some ep) (hm : ep.method = Method.GET)
    (hp : st.queryParams.filter (fun p => p.value ≠ "") = []) :
    generateQueryCode st = queryCodeFor (endpointNameOf ep) (methodStr ep.method) ep.url := by
  simp only [generateQueryCode, hsel, hp, hm, queryCodeFor, methodStr,
    List.isEmpty_nil, Bool.not_true, beq_self_eq_true, Bool.false_and,
    Bool.and_self, if_true, if_false, Bool.false_eq_true, ite_false, ite_true]
  simp [← String.append_assoc]

theorem gen_GET_withParams (st : BuilderState) (ep : QueryEndpoint)
    (hsel : st.selectedEndpoint = some ep) (hm : ep.method = Method.GET)
    (hp : st.queryParams.filter (fun p => p.value ≠ "") ≠ []) :
    generateQueryCode st =
      queryCodeFor (endpointNameOf ep) (methodStr ep.method)
        (ep.url ++ "?" ++ String.intercalate "&"
          ((st.queryParams.filter (fun p => p.value ≠ "")).map
            (fun p => p.key ++ "=$\x7b" ++ p.key ++ "\x7d"))) := by
  have hqs := queryString_ne_empty _ hp
  have hne : (st.queryParams.filter (fun p => p.value ≠ "")).isEmpty = false := by
    simpa [List.isEmpty_iff] using hp
  simp only [generateQueryCode, hsel, hm, hne, queryCodeFor, methodStr,
    Bool.not_false, beq_self_eq_true, Bool.and_self, if_true, if_neg hqs]
  simp [← String.append_assoc]

theorem gen_mutation_noBody (st : BuilderState) (ep : QueryEndpoint)
    (hsel : st.selectedEndpoint = some ep) (hm : ep.method ≠ Method.GET)
    (hb : st.requestBody.trim = "") :
    generateQueryCode st =
      mutationCodeNoBody (endpointNameOf ep) (methodStr ep.method) ep.url := by
  have hq : (ep.method == Method.GET) = false := by
    simpa using hm
  simp only [generateQueryCode, hsel, hq, hb, mutationCodeNoBody,
    Bool.and_false, if_false, Bool.false_eq_true, ite_false, ne_eq,
    not_true_eq_false, ite_self]
  simp [← String.append_assoc]

theorem gen_mutation_withBody (st : BuilderState) (ep : QueryEndpoint)
    (hsel : st.selectedEndpoint = some ep) (hm : ep.method ≠ Method.GET)
    (hb : st.requestBody.trim ≠ "") :
    generateQueryCode st =
      mutationCodeWithBody (endpointNameOf ep) (methodStr ep.method) ep.url := by
  have hq : (ep.method == Method.GET) = false := by
    simpa using hm
  simp only [generateQueryCode, hsel, hq, mutationCodeWithBody,
    Bool.and_false, if_false, Bool.false_eq_true, ite_false, if_pos hb]

set_option maxRecDepth 16384 in
theorem queryCodeFor_mentions (n m u : String) :
    ∃ a b, queryCodeFor n m u = a ++ ("builder.query" ++ b) := by
  refine ⟨"const api = createApi(\x7b\n"
      ++ "  baseQuery: async (params) => \x7b\n"
      ++ "    // Your base query logic here\n"
      ++ "  \x7d,\n"
      ++ "  endpoints(builder) \x7b\n"
      ++ "    return \x7b\n"
      ++ "      " ++ n ++ ": ",
    "<any, any>(\x7b\n"
      ++ "        query: (arg) => (\x7b\n"
      ++ "          method: \x27" ++ m ++ "\x27,\n"
      ++ "          url: `" ++ u ++ "`,\n"
      ++ "        \x7d),\n"
      ++ "        onSuccess(data) \x7b\n"
      ++ "          console.log(data);\n"
      ++ "        \x7d,\n"
      ++ "        onError(err) \x7b\n"
      ++ "          console.error(err);\n"
      ++ "        \x7d,\n"
      ++ "      \x7d),\n"
      ++ "    \x7d\n"
      ++ "  \x7d,\n"
      ++ "\x7d)\n\n"
      ++ "const \x7b\n"
      ++ "  use" ++ capitalizeFirst n ++ "Query,\n"
      ++ "\x7d = api", ?_⟩
  apply String.ext
  simp [queryCodeFor, String.data_append, List.append_assoc]

set_option maxRecDepth 16384 in
theorem mutationCodeNoBody_mentions (n m u : String) :
    ∃ a b, mutationCodeNoBody n m u = a ++ ("builder.mutation" ++ b) := by
  refine ⟨"const api = createApi(\x7b\n"
      ++ "  baseQuery: async (params) => \x7b\n"
      ++ "    // Your base query logic here\n"
      ++ "  \x7d,\n"
      ++ "  endpoints(builder) \x7b\n"
      ++ "    return \x7b\n"
      ++ "      " ++ n ++ ": ",
    "<any, any>(\x7b\n"
      ++ "        query: (arg) => (\x7b\n"
      ++ "          url: \x27" ++ u ++ "\x27,\n"
      ++ "          method: \x27" ++ m ++ "\x27,\n"
      ++ "        \x7d),\n"
      ++ "        onSuccess(data) \x7b\n"
      ++ "          console.log(data);\n"
      ++ "        \x7d,\n"
      ++ "        onError(err) \x7b\n"
      ++ "          console.error(err);\n"
      ++ "        \x7d,\n"
      ++ "      \x7d),\n"
      ++ "    \x7d\n"
      ++ "  \x7d,\n"
      ++ "\x7d)\n\n"
      ++ "const \x7b\n"
      ++ "  use" ++ capitalizeFirst n ++ "Mutation,\n"
      ++ "\x7d = api", ?_⟩
  apply String.ext
  simp [mutationCodeNoBody, String.data_append, List.append_assoc]

set_option maxRecDepth 16384 in
theorem mutationCodeWithBody_mentions (n m u : String) :
    ∃ a b, mutationCodeWithBody n m u = a ++ ("builder.mutation" ++ b) := by
  refine ⟨"const api = createApi(\x7b\n"
      ++ "  baseQuery: async (params) => \x7b\n"
      ++ "    // Your base query logic here\n"
      ++ "  \x7d,\n"
      ++ "  endpoints(builder) \x7b\n"
      ++ "    return \x7b\n"
      ++ "      " ++ n ++ ": ",
    "<any, any>(\x7b\n"
      ++ "        query: (arg) => (\x7b\n"
      ++ "          url: \x27" ++ u ++ "\x27,\n"
      ++ "          method: \x27" ++ m ++ "\x27,\n"
      ++ ("          body: \x7b...arg\x7d,\n"
            ++ "          headers: \x7b\n"
            ++ "            \x27Content-type\x27: \x27application/json; charset=UTF-8\x27,\n"
            ++ "          \x7d,\n")
      ++ "        \x7d),\n"
      ++ "        onSuccess(data) \x7b\n"
      ++ "          console.log(data);\n"
      ++ "        \x7d,\n"
      ++ "        onError(err) \x7b\n"
      ++ "          console.error(err);\n"
      ++ "        \x7d,\n"
      ++ "      \x7d),\n"
      ++ "    \x7d\n"
      ++ "  \x7d,\n"
      ++ "\x7d)\n\n"
      ++ "const \x7b\n"
      ++ "  use" ++ capitalizeFirst n ++ "Mutation,\n"
      ++ "\x7d = api", ?_⟩
  apply String.ext
  simp [mutationCodeWithBody, String.data_append, List.append_assoc]

/-- C9: with an endpoint selected, `generateQueryCode` emits a
`builder.query` definition whose URL carries the non-empty query
parameters exactly when the method is GET and such parameters exist; for
POST, PUT and DELETE it emits a `builder.mutation` definition that does
not depend on the query parameters at all and contains the body spread
plus the JSON Content-type header exactly when the trimmed request body
is non-empty. -/
theorem generateQueryCode_spec (st : BuilderState) (ep : QueryEndpoint)
    (hsel : st.selectedEndpoint = some ep) :
    (ep.method = Method.GET →
      ((st.queryParams.filter (fun p => p.value ≠ "") = [] →
          generateQueryCode st =
            queryCodeFor (endpointNameOf ep) (methodStr ep.method) ep.url)
        ∧ (st.queryParams.filter (fun p => p.value ≠ "") ≠ [] →
          generateQueryCode st =
            queryCodeFor (endpointNameOf ep) (methodStr ep.method)
              (ep.url ++ "?" ++ String.intercalate "&"
                ((st.queryParams.filter (fun p => p.value ≠ "")).map
                  (fun p => p.key ++ "=$\x7b" ++ p.key ++ "\x7d"))))
        ∧ (∃ a b, generateQueryCode st = a ++ ("builder.query" ++ b))))
    ∧ (ep.method ≠ Method.GET →
      ((st.requestBody.trim = "" →
          generateQueryCode st =
            mutationCodeNoBody (endpointNameOf ep) (methodStr ep.method) ep.url)
        ∧ (st.requestBody.trim ≠ "" →
          generateQueryCode st =
            mutationCodeWithBody (endpointNameOf ep) (methodStr ep.method) ep.url)
        ∧ (∀ qps, generateQueryCode { st with queryParams := qps } = generateQueryCode st)
        ∧ (∃ a b, generateQueryCode st = a ++ ("builder.mutation" ++ b)))) := by
  constructor
  · intro hm
    refine ⟨fun hp => gen_GET_noParams st ep hsel hm hp,
            fun hp => gen_GET_withParams st ep hsel hm hp, ?_⟩
    by_cases hp : st.queryParams.filter (fun p => p.value ≠ "") = []
    · rw [gen_GET_noParams st ep hsel hm hp]
      exact queryCodeFor_mentions _ _ _
    · rw [gen_GET_withParams st ep hsel hm hp]
      exact queryCodeFor_mentions _ _ _
  · intro hm
    refine ⟨fun hb => gen_mutation_noBody st ep hsel hm hb,
            fun hb => gen_mutation_withBody st ep hsel hm hb, ?_, ?_⟩
    · intro qps
      by_cases hb : st.requestBody.trim = ""
      · rw [gen_mutation_noBody st ep hsel hm hb,
            gen_mutation_noBody { st with queryParams := qps } ep hsel hm hb]
      · rw [gen_mutation_withBody st ep hsel hm hb,
            gen_mutation_withBody { st with queryParams := qps } ep hsel hm hb]
    · by_cases hb : st.requestBody.trim = ""
      · rw [gen_mutation_noBody st ep hsel hm hb]
        exact mutationCodeNoBody_mentions _ _ _
      · rw [gen_mutation_withBody st ep hsel hm hb]
        exact mutationCodeWithBody_mentions _ _ _

/-- Concrete GET endpoint used by the C9 witness. -/
def epG : QueryEndpoint := ⟨0, "Get Users", Method.GET, "/users"⟩

/-- Concrete builder state used by the C9 witness. -/
def stG : BuilderState := ⟨[epG], some epG, [⟨"id", "1", ParamType.string⟩], ""⟩

/-- Witness for C9: instantiating `generateQueryCode_spec` on a concrete
GET endpoint with one non-empty query parameter. -/
theorem generateQueryCode_spec_witness :
    generateQueryCode stG =
      queryCodeFor (endpointNameOf epG) (methodStr epG.method)
        (epG.url ++ "?" ++ String.intercalate "&"
          ((stG.queryParams.filter (fun p => p.value ≠ "")).map
            (fun p => p.key ++ "=$\x7b" ++ p.key ++ "\x7d"))) :=
  ((generateQueryCode_spec stG epG rfl).1 rfl).2.1 (by decide)

/-- C10: `deleteEndpoint i` replaces the endpoint list by the same list
with the element at position `i` removed, preserving the order of the
others; when the deleted endpoint was the selected one, the selection
moves to the new first endpoint if any remain, and otherwise stays on
the just-deleted endpoint. -/
theorem deleteEndpoint_spec (st : BuilderState) (i : Nat) :
    (deleteEndpoint st i).endpoints = st.endpoints.take i ++ st.endpoints.drop (i + 1)
    ∧ (∀ e, st.endpoints[i]? = some e → st.selectedEndpoint = some e →
        ((deleteEndpoint st i).endpoints ≠ [] →
            (deleteEndpoint st i).selectedEndpoint = (deleteEndpoint st i).endpoints[0]?)
        ∧ ((deleteEndpoint st i).endpoints = [] →
            (deleteEndpoint st i).selectedEndpoint = some e)) := by
  constructor
  · simp [deleteEndpoint, List.eraseIdx_eq_take_drop_succ]
  · intro e he hsl
    constructor
    · intro hne
      have hlen : 0 < (st.endpoints.eraseIdx i).length := by
        have : (deleteEndpoint st i).endpoints = st.endpoints.eraseIdx i := by
          simp [deleteEndpoint]
        rw [this] at hne
        exact List.length_pos.2 hne
      simp [deleteEndpoint, he, hsl, hlen]
    · intro hemp
      have hlen : ¬ 0 < (st.endpoints.eraseIdx i).length := by
        have : (deleteEndpoint st i).endpoints = st.endpoints.eraseIdx i := by
          simp [deleteEndpoint]
        rw [this] at hemp
        simp [hemp]
      simp [deleteEndpoint, he, hsl, hlen]

/-- Concrete endpoints and state used by the C10 witness. -/
def e1W : QueryEndpoint := ⟨1, "Get Users", Method.GET, "/users"⟩

/-- Second concrete endpoint of the C10 witness. -/
def e2W : QueryEndpoint := ⟨2, "Add User", Method.POST, "/users"⟩

/-- Concrete builder state of the C10 witness: two endpoints, the first
selected. -/
def stW : BuilderState := ⟨[e1W, e2W], some e1W, [], ""⟩

/-- Witness for C10: deleting the selected first endpoint of a two-element
list keeps the other endpoint and reselects it. -/
theorem deleteEndpoint_spec_witness :
    (deleteEndpoint stW 0).endpoints = stW.endpoints.take 0 ++ stW.endpoints.drop 1
    ∧ (deleteEndpoint stW 0).selectedEndpoint = (deleteEndpoint stW 0).endpoints[0]? := by
  obtain ⟨h1, h2⟩ := deleteEndpoint_spec stW 0
  exact ⟨h1, (h2 e1W rfl rfl).1 (by decide)⟩

/-! ## Store engine model (C1, C7, C8)

The zustic store implementation is not part of this repository (the
repository is its documentation site), so the definitions below are
modelled from the specification: StoreCore (§4.1) and MiddlewareChain
(§4.2). -/

/-- A store value: a JavaScript-object-like finite map given as an
association list from keys to integers.  `objGet` is property read. -/
abbrev StoreObj := List (String × Int)

/-- Property read on a store object (first binding wins). -/
def objGet (o : StoreObj) (k : String) : Option Int :=
  (o.find? (fun kv => kv.1 == k)).map (fun kv => kv.2)

/-- Modelled from the spec: the JavaScript spread merge
`\x7b...current, ...partial\x7d` (§4.1).  Keys of `current` keep their
position with values overridden by `upd`; keys only in `upd` are
appended in their order. -/
def mergeObj (current upd : StoreObj) : StoreObj :=
  current.map (fun kv =>
    match upd.find? (fun uv => uv.1 == kv.1) with
    | some uv => uv
    | none => kv)
  ++ upd.filter (fun uv => !(current.any (fun kv => kv.1 == uv.1)))

/-- Events observable while a mutation runs through the middleware
chain: middleware entry, middleware exit, and the raw state-replace
operation. -/
inductive MWEvent where
  | enter (tag : Nat)
  | exit (tag : Nat)
  | rawOp
deriving DecidableEq

/-- Modelled from the spec: the store visible to `setState` — its value,
an event log for observing middleware order, the number of listener
notification rounds so far, and a flag recording whether the raw
state-replace operation ran during the current `setState` call. -/
structure Store where
  state : StoreObj
  log : List MWEvent
  notifyCount : Nat
  mutated : Bool
deriving DecidableEq

/-- The argument of `set`: a literal partial object or a function of the
current state (§4.1). -/
inductive SetArg where
  | obj (u : StoreObj)
  | fn (f : StoreObj → StoreObj)

/-- Resolve the partial against the current state (§4.1: the functional
form is resolved immediately against the current value). -/
def resolveArg (a : SetArg) (cur : StoreObj) : StoreObj :=
  match a with
  | SetArg.obj u => u
  | SetArg.fn f => f cur

/-- Modelled from the spec: the raw state-replace operation at the
innermost end of the middleware chain (§4.2): resolve the partial,
install the shallow merge, record the raw-op event and mark the mutation
as having happened. -/
def rawSet (a : SetArg) (s : Store) : Store :=
  { s with
    state := mergeObj s.state (resolveArg a s.state),
    log := s.log ++ [MWEvent.rawOp],
    mutated := true }

/-- Middleware behaviours used to observe the chain: a logging
middleware (logs entry, calls `next`, logs exit) and a rejecting
middleware (returns without calling `next`, the validation escape hatch
of §4.2). -/
inductive MWSpec where
  | log (tag : Nat)
  | reject
deriving DecidableEq

/-- Run one middleware around a continuation. -/
def runMW : MWSpec → (SetArg → Store → Store) → SetArg → Store → Store
  | MWSpec.log t, next, a, s =>
      let s1 := { s with log := s.log ++ [MWEvent.enter t] }
      let s2 := next a s1
      { s2 with log := s2.log ++ [MWEvent.exit t] }
  | MWSpec.reject, _, _, s => s

/-- Modelled from the spec: left-to-right composition of the declared
middleware list around the raw operation (§4.2): `m1` invokes `m2` via
`next`, and the innermost `next` is the raw state-replace operation. -/
def chain : List MWSpec → (SetArg → Store → Store) → SetArg → Store → Store
  | [], raw => raw
  | m :: ms, raw => runMW m (chain ms raw)

/-- Modelled from the spec: `setState` runs the full middleware chain
around `rawSet` and, when the mutation actually happened, notifies the
listeners once afterwards (§4.1, §3: listeners run after a successful
mutation completes the full chain). -/
def setState (mws : List MWSpec) (a : SetArg) (s : Store) : Store :=
  let s1 := chain mws rawSet a { s with mutated := false }
  if s1.mutated then { s1 with notifyCount := s1.notifyCount + 1 } else s1

/-- Running a chain of logging middlewares performs the enters in
declaration order, then the raw operation, then the exits in reverse
order, and installs the merged state. -/
theorem chain_log_run (ts : List Nat) (a : SetArg) (s : Store) :
    chain (ts.map MWSpec.log) rawSet a s =
      { state := mergeObj s.state (resolveArg a s.state),
        log := s.log ++ (ts.map MWEvent.enter) ++ [MWEvent.rawOp]
          ++ ((ts.reverse).map MWEvent.exit),
        notifyCount := s.notifyCount,
        mutated := true } := by
  induction ts generalizing s with
  | nil => simp [chain, rawSet]
  | cons t ts ih =>
      simp only [List.map_cons, chain, runMW, ih]
      simp [List.append_assoc]

/-- C1: for every declared middleware list (observed through logging
middlewares tagged by their position) and every mutation, the composed
pipeline logs the entries in declaration order, then the raw
state-replace operation, then the exits in reverse order, and installs
the merged state; in particular for two middlewares A (tag 0) and B
(tag 1) the log is A-enter, B-enter, raw-op, B-exit, A-exit. -/
theorem middleware_onion_order (ts : List Nat) (a : SetArg) (s : Store) :
    (setState (ts.map MWSpec.log) a s).log =
        s.log ++ (ts.map MWEvent.enter) ++ [MWEvent.rawOp]
          ++ ((ts.reverse).map MWEvent.exit)
    ∧ (setState (ts.map MWSpec.log) a s).state = mergeObj s.state (resolveArg a s.state)
    ∧ (setState [MWSpec.log 0, MWSpec.log 1] a s).log =
        s.log ++ [MWEvent.enter 0, MWEvent.enter 1, MWEvent.rawOp,
          MWEvent.exit 1, MWEvent.exit 0] := by
  have h := chain_log_run ts a { s with mutated := false }
  have h2 := chain_log_run [0, 1] a { s with mutated := false }
  simp only [List.map_cons, List.map_nil, List.reverse_cons, List.reverse_nil,
    List.nil_append, List.append_assoc, List.cons_append, List.singleton_append] at h2
  refine ⟨?_, ?_, ?_⟩
  · simp [setState, h]
  · simp [setState, h]
  · simp [setState, h2]

/-- If the rejecting middleware occurs anywhere in the chain, running the
chain leaves the state, the mutated flag and the notification count of
the store untouched (only log entries of the outer middlewares are
added). -/
theorem chain_reject_frame (ms : List MWSpec) (a : SetArg) :
    ∀ (s : Store), MWSpec.reject ∈ ms →
      (chain ms rawSet a s).state = s.state
      ∧ (chain ms rawSet a s).mutated = s.mutated
      ∧ (chain ms rawSet a s).notifyCount = s.notifyCount := by
  induction ms with
  | nil => intro s h; cases h
  | cons m ms ih =>
      intro s h
      cases m with
      | log t =>
          have hmem : MWSpec.reject ∈ ms := by
            rcases List.mem_cons.mp h with h1 | h1
            · exact absurd h1 (by simp)
            · exact h1
          obtain ⟨h1, h2, h3⟩ := ih { s with log := s.log ++ [MWEvent.enter t] } hmem
          simp only [chain, runMW]
          exact ⟨h1, h2, h3⟩
      | reject =>
          simp [chain, runMW]

/-- C7: a middleware chain containing a middleware that returns without
calling `next` leaves `getState()` unchanged after `setState` returns
(the call returns normally — it is a total function here) and notifies
no listener: the mutation is silently dropped. -/
theorem reject_drops_mutation (ms : List MWSpec) (a : SetArg) (s : Store)
    (h : MWSpec.reject ∈ ms) :
    (setState ms a s).state = s.state
    ∧ (setState ms a s).notifyCount = s.notifyCount := by
  obtain ⟨h1, h2, h3⟩ := chain_reject_frame ms a { s with mutated := false } h
  simp only [setState]
  rw [h2]
  simp only [Bool.false_eq_true, if_false]
  exact ⟨h1, h3⟩

/-- Concrete store used by the C7 and C8 witnesses. -/
def s0W : Store := ⟨[("count", 0)], [], 0, false⟩

/-- Witness for C7: a logging middleware followed by a rejecting one
drops a concrete mutation on a concrete store. -/
theorem reject_drops_mutation_witness :
    (setState [MWSpec.log 0, MWSpec.reject] (SetArg.obj [("count", 5)]) s0W).state
        = s0W.state
    ∧ (setState [MWSpec.log 0, MWSpec.reject] (SetArg.obj [("count", 5)]) s0W).notifyCount
        = s0W.notifyCount :=
  reject_drops_mutation _ _ _ (by decide)

/-- Property read after a spread merge at a key the update does not
mention gives the old value. -/
theorem objGet_merge_absent (c u : StoreObj) (k : String)
    (h : u.find? (fun uv => uv.1 == k) = none) :
    objGet (mergeObj c u) k = objGet c k := by
  have hfil : (u.filter (fun uv => !(c.any (fun kv => kv.1 == uv.1)))).find?
      (fun uv => uv.1 == k) = none := by
    rw [List.find?_eq_none] at h ⊢
    intro x hx
    exact h x (List.mem_of_mem_filter hx)
  unfold mergeObj objGet
  rw [List.find?_append, hfil]
  rw [List.find?_map]
  have hcomp : ((fun kv : String × Int => kv.1 == k) ∘ (fun kv : String × Int =>
      match u.find? (fun uv => uv.1 == kv.1) with
      | some uv => uv
      | none => kv)) = (fun kv : String × Int => kv.1 == k) := by
    funext kv
    simp only [Function.comp]
    cases hu : u.find? (fun uv => uv.1 == kv.1) with
    | none => rfl
    | some uv =>
        have huv : uv.1 = kv.1 := by simpa using List.find?_some hu
        simp [huv]
  rw [hcomp]
  cases hc : c.find? (fun kv : String × Int => kv.1 == k) with
  | none => simp
  | some kv0 =>
      have hk : kv0.1 = k := by simpa using List.find?_some hc
      have hu0 : u.find? (fun uv => uv.1 == kv0.1) = none := by rw [hk]; exact h
      simp [hu0]

/-- The functional increment update of the counter scenario:
`set((state) => (\x7bcount: state.count + 1\x7d))`. -/
def incArg : SetArg :=
  SetArg.fn (fun st => [("count", (objGet st "count").getD 0 + 1)])

/-- C8: `set` installs the shallow merge of the current state with the
resolved partial, keys absent from the partial keep their old value, and
the counter scenario holds: starting from count 0, two functional
increments through `setState` yield count 2. -/
theorem setState_shallow_merge (s : Store) (a : SetArg) :
    (setState [] a s).state = mergeObj s.state (resolveArg a s.state)
    ∧ (∀ k, (resolveArg a s.state).find? (fun uv => uv.1 == k) = none →
        objGet (setState [] a s).state k = objGet s.state k)
    ∧ objGet (setState [] incArg (setState [] incArg s0W)).state "count" = some 2 := by
  have hmerge : (setState [] a s).state = mergeObj s.state (resolveArg a s.state) := by
    simp [setState, chain, rawSet]
  refine ⟨hmerge, ?_, ?_⟩
  · intro k h
    rw [hmerge]
    exact objGet_merge_absent _ _ _ h
  · decide

/-- Concrete store used by the C8 witness. -/
def s1W : Store := ⟨[("a", 1)], [], 0, false⟩

/-- Witness for C8: merging in a partial that only mentions key `b`
leaves key `a` unchanged on a concrete store. -/
theorem setState_shallow_merge_witness :
    (setState [] (SetArg.obj [("b", 2)]) s1W).state
        = mergeObj s1W.state (resolveArg (SetArg.obj [("b", 2)]) s1W.state)
    ∧ objGet (setState [] (SetArg.obj [("b", 2)]) s1W).state "a" = objGet s1W.state "a" := by
  obtain ⟨h1, h2, h3⟩ := setState_shallow_merge s1W (SetArg.obj [("b", 2)])
  exact ⟨h1, h2 "a" (by decide)⟩

/-! ## Cache manager model (C4)

Modelled from the spec (§4.3, §3): the query engine is not part of this
repository, so `CacheManager` is embedded from the specification text. -/

/-- A cache entry: the cached data, the instant it was stored, and its
time-to-live in milliseconds. -/
structure CacheEntry where
  data : String
  storedAt : Int
  ttl : Int
deriving DecidableEq

/-- The cache: a finite map from keys to entries. -/
abbrev CacheMap := List (String × CacheEntry)

/-- Raw lookup of the entry stored under a key. -/
def cacheFind (c : CacheMap) (k : String) : Option CacheEntry :=
  (c.find? (fun kv => kv.1 == k)).map (fun kv => kv.2)

/-- Modelled from the spec: `CacheManager.lookup` returns a hit only if
`now - storedAt < ttl` (§4.3); otherwise, and for absent keys, it
misses. -/
def lookup (c : CacheMap) (k : String) (now : Int) : Option String :=
  match cacheFind c k with
  | some e => if now - e.storedAt < e.ttl then some e.data else none
  | none => none

/-- Modelled from the spec: `CacheManager.store` replaces the entry under
the key with fresh data stored at `now`. -/
def cacheStore (c : CacheMap) (k : String) (d : String) (now ttl : Int) : CacheMap :=
  (k, ⟨d, now, ttl⟩) :: c.filter (fun kv => kv.1 != k)

/-- C4: `lookup` hits exactly when an entry is stored under the key and
`now - storedAt < ttl` holds for it; an entry with `ttl ≤ 0` can never
be served as long as it was stored at or before `now` (clock
monotonicity, an invariant of every execution), so `ttl = 0` means the
result is never served from cache. -/
theorem lookup_hit_iff (c : CacheMap) (k : String) (now : Int) :
    ((∃ d, lookup c k now = some d) ↔
      (∃ e, cacheFind c k = some e ∧ now - e.storedAt < e.ttl))
    ∧ (∀ e, cacheFind c k = some e → e.ttl ≤ 0 → e.storedAt ≤ now →
        lookup c k now = none) := by
  constructor
  · constructor
    · rintro ⟨d, hd⟩
      cases hf : cacheFind c k with
      | none => simp [lookup, hf] at hd
      | some e =>
          by_cases hv : now - e.storedAt < e.ttl
          · exact ⟨e, rfl, hv⟩
          · simp [lookup, hf, hv] at hd
    · rintro ⟨e, hf, hv⟩
      exact ⟨e.data, by simp [lookup, hf, hv]⟩
  · intro e hf httl hmono
    have hv : ¬ now - e.storedAt < e.ttl := by omega
    simp [lookup, hf, hv]

/-- Concrete cache used by the C4 witness: one entry with `ttl = 0`. -/
def cW : CacheMap := [("k", ⟨"v", 10, 0⟩)]

/-- Witness for C4: the zero-ttl entry of `cW` misses at a later
instant, by `lookup_hit_iff`. -/
theorem lookup_hit_iff_witness : lookup cW "k" 25 = none :=
  (lookup_hit_iff cW "k" 25).2 ⟨"v", 10, 0⟩ (by decide) (by decide) (by decide)

/-! ## Request executor model (C2, C5, C6)

Modelled from the spec (§4.4): a single `execute` call as a state
transformer.  The engine is single-threaded and suspends only at
`baseQuery`; for the sequential claims C2, C5 and C6 a call runs to
completion, so `baseQuery` is a parameter function and the instrumented
counters record how much network, middleware and plugin work happened.
Concurrency (claim C3) is modelled separately by the deduplication state
machine below. -/

/-- The reactive state callers observe:
`data / error / isLoading / isSuccess / isError`. -/
structure QueryState where
  data : Option String
  error : Option String
  isLoading : Bool
  isSuccess : Bool
  isError : Bool
deriving DecidableEq

/-- Result of the externally supplied `baseQuery`. -/
inductive BQResult where
  | ok (d : String)
  | err (e : String)
deriving DecidableEq

/-- Static configuration of an endpoint as far as the executor claims
need it: its name and how many middlewares and plugin hooks run per
executed request. -/
structure EndpointCfg where
  name : String
  nMiddlewares : Nat
  nPlugins : Nat
deriving DecidableEq

/-- Executor state: the cache, the pending-request key set, the reactive
query state and instrumentation counters for `baseQuery` invocations,
middleware executions and plugin hook invocations. -/
structure ExSt where
  cache : CacheMap
  pending : List String
  qs : QueryState
  bqCount : Nat
  mwCount : Nat
  plgCount : Nat
deriving DecidableEq

/-- Modelled from the spec: the deterministic cache key of
`(endpointName, arg)` (§4.3). -/
def cacheKey (epName arg : String) : String := epName ++ "/" ++ arg

/-- Modelled from the spec: one `execute(endpoint, arg, options)` call
(§4.4 steps 1–8).  `skip` terminates immediately with nothing changed;
otherwise, unless `bypass` (reFetch) is set, a cache hit short-circuits
the whole pipeline; on a miss with an in-flight operation for the key
the call attaches to it (starting no new work — the synchronous model
for the sequential claims); otherwise the pipeline runs: loading is
raised, before-hooks and the middleware chain execute, `baseQuery` is
invoked, and on success the result is cached and the state set to
success, while on failure the cache is left alone and the state set to
error (data untouched); the pending key is released either way. -/
def execute (ep : EndpointCfg) (arg : String) (bq : String → BQResult)
    (ttl : Int) (skip bypass : Bool) (now : Int) (st : ExSt) : ExSt :=
  if skip then st
  else
    let key := cacheKey ep.name arg
    match (if bypass then none else lookup st.cache key now) with
    | some d =>
        { st with
          qs :=
            { data := some d
              error := none
              isLoading := false
              isSuccess := true
              isError := false } }
    | none =>
        if key ∈ st.pending then
          st
        else
          let st1 := { st with
            qs := { st.qs with isLoading := true },
            pending := key :: st.pending,
            plgCount := st.plgCount + ep.nPlugins,
            mwCount := st.mwCount + ep.nMiddlewares }
          match bq arg with
          | BQResult.ok d =>
              { st1 with
                cache := cacheStore st1.cache key d now ttl
                qs :=
                  { data := some d
                    error := none
                    isLoading := false
                    isSuccess := true
                    isError := false }
                bqCount := st1.bqCount + 1
                plgCount := st1.plgCount + ep.nPlugins
                pending := st1.pending.erase key }
          | BQResult.err e =>
              { st1 with
                qs :=
                  { st1.qs with
                    error := some e
                    isLoading := false
                    isSuccess := false
                    isError := true }
                bqCount := st1.bqCount + 1
                plgCount := st1.plgCount + ep.nPlugins
                pending := st1.pending.erase key }

/-- C6: a call with `skip` set terminates immediately with nothing
changed — the whole executor state (cache, pending map, counters,
reactive state) is returned untouched, so `baseQuery` is never invoked
and `isLoading` is never raised. -/
theorem skip_is_noop (ep : EndpointCfg) (arg : String) (bq : String → BQResult)
    (ttl : Int) (bypass : Bool) (now : Int) (st : ExSt) :
    execute ep arg bq ttl true bypass now st = st
    ∧ (execute ep arg bq ttl true bypass now st).bqCount = st.bqCount
    ∧ (execute ep arg bq ttl true bypass now st).qs.isLoading = st.qs.isLoading
    ∧ (execute ep arg bq ttl true bypass now st).cache = st.cache
    ∧ (execute ep arg bq ttl true bypass now st).pending = st.pending :=
  ⟨rfl, rfl, rfl, rfl, rfl⟩

/-- C2: a cold call (cache miss, no pending entry) followed, within the
entry ttl, by a second call with the same endpoint and argument invokes
`baseQuery` exactly once across the two calls: the first call performs
the network work and caches the data, the second is a pure cache hit
returning the same data with no middleware, plugin or network work and
no state change besides the reactive success state. -/
theorem cache_idempotent_hit (ep : EndpointCfg) (arg d : String)
    (bq : String → BQResult) (ttl now0 now1 : Int) (st : ExSt)
    (hmiss : lookup st.cache (cacheKey ep.name arg) now0 = none)
    (hpend : cacheKey ep.name arg ∉ st.pending)
    (hbq : bq arg = BQResult.ok d)
    (httl : now1 - now0 < ttl) :
    (execute ep arg bq ttl false false now0 st).bqCount = st.bqCount + 1
    ∧ (execute ep arg bq ttl false false now0 st).qs.data = some d
    ∧ (execute ep arg bq ttl false false now1
        (execute ep arg bq ttl false false now0 st)).qs.data = some d
    ∧ (execute ep arg bq ttl false false now1
        (execute ep arg bq ttl false false now0 st)).bqCount
      = (execute ep arg bq ttl false false now0 st).bqCount
    ∧ (execute ep arg bq ttl false false now1
        (execute ep arg bq ttl false false now0 st)).mwCount
      = (execute ep arg bq ttl false false now0 st).mwCount
    ∧ (execute ep arg bq ttl false false now1
        (execute ep arg bq ttl false false now0 st)).plgCount
      = (execute ep arg bq ttl false false now0 st).plgCount
    ∧ (execute ep arg bq ttl false false now1
        (execute ep arg bq ttl false false now0 st)).cache
      = (execute ep arg bq ttl false false now0 st).cache
    ∧ (execute ep arg bq ttl false false now1
        (execute ep arg bq ttl false false now0 st)).pending
      = (execute ep arg bq ttl false false now0 st).pending
    ∧ (execute ep arg bq ttl false false now1
        (execute ep arg bq ttl false false now0 st)).qs.isSuccess = true
    ∧ (execute ep arg bq ttl false false now1
        (execute ep arg bq ttl false false now0 st)).qs.isLoading = false
    ∧ (execute ep arg bq ttl false false now1
        (execute ep arg bq ttl false false now0 st)).qs.isError = false := by
  have e1 : execute ep arg bq ttl false false now0 st =
      { cache := cacheStore st.cache (cacheKey ep.name arg) d now0 ttl,
        pending := st.pending,
        qs :=
          { data := some d,
            error := none,
            isLoading := false,
            isSuccess := true,
            isError := false },
        bqCount := st.bqCount + 1,
        mwCount := st.mwCount + ep.nMiddlewares,
        plgCount := st.plgCount + ep.nPlugins + ep.nPlugins } := by
    simp [execute, hmiss, hpend, hbq, List.erase_cons_head]
  have hl : lookup (cacheStore st.cache (cacheKey ep.name arg) d now0 ttl)
      (cacheKey ep.name arg) now1 = some d := by
    simp [lookup, cacheFind, cacheStore, httl]
  rw [e1]
  simp [execute, hl]

/-- Concrete endpoint, initial state and base queries for the executor
witnesses. -/
def epW : EndpointCfg := ⟨"getUser", 1, 1⟩

/-- Empty initial executor state of the executor witnesses. -/
def exStW : ExSt := ⟨[], [], ⟨none, none, false, false, false⟩, 0, 0, 0⟩

/-- Base query that always succeeds, for the witnesses. -/
def bqOkW : String → BQResult := fun _ => BQResult.ok "alice"

/-- Base query that always fails, for the C5 witness. -/
def bqErrW : String → BQResult := fun _ => BQResult.err "http 500"

/-- Witness for C2: the concrete scenario of the spec (§8): call at t=0
and t=2000 with `cacheTimeout` 5000 makes exactly one network call. -/
theorem cache_idempotent_hit_witness :
    (execute epW "1" bqOkW 5000 false false 0 exStW).bqCount = exStW.bqCount + 1
    ∧ (execute epW "1" bqOkW 5000 false false 2000
        (execute epW "1" bqOkW 5000 false false 0 exStW)).bqCount
      = (execute epW "1" bqOkW 5000 false false 0 exStW).bqCount := by
  have h := cache_idempotent_hit epW "1" "alice" bqOkW 5000 0 2000 exStW rfl
    (by decide) rfl (by decide)
  exact ⟨h.1, h.2.2.2.1⟩

/-- C5: when `baseQuery` fails, the cache is left exactly as it was and
the reactive state becomes the error state (previous data untouched);
a subsequent successful retry with the same argument stores a cache
entry carrying only the successful result. -/
theorem error_does_not_poison_cache (ep : EndpointCfg) (arg e d : String)
    (bq bq2 : String → BQResult) (ttl : Int) (bypass : Bool) (now now2 : Int)
    (st : ExSt)
    (hpend : cacheKey ep.name arg ∉ st.pending)
    (hbq : bq arg = BQResult.err e)
    (hmiss : bypass = true ∨ lookup st.cache (cacheKey ep.name arg) now = none)
    (hbq2 : bq2 arg = BQResult.ok d)
    (hmiss2 : lookup st.cache (cacheKey ep.name arg) now2 = none) :
    (execute ep arg bq ttl false bypass now st).cache = st.cache
    ∧ (execute ep arg bq ttl false bypass now st).qs.isLoading = false
    ∧ (execute ep arg bq ttl false bypass now st).qs.isError = true
    ∧ (execute ep arg bq ttl false bypass now st).qs.isSuccess = false
    ∧ (execute ep arg bq ttl false bypass now st).qs.error = some e
    ∧ (execute ep arg bq ttl false bypass now st).qs.data = st.qs.data
    ∧ cacheFind (execute ep arg bq2 ttl false false now2
        (execute ep arg bq ttl false bypass now st)).cache (cacheKey ep.name arg)
      = some ⟨d, now2, ttl⟩ := by
  have e1 : execute ep arg bq ttl false bypass now st =
      { cache := st.cache,
        pending := st.pending,
        qs :=
          { st.qs with
            error := some e,
            isLoading := false,
            isSuccess := false,
            isError := true },
        bqCount := st.bqCount + 1,
        mwCount := st.mwCount + ep.nMiddlewares,
        plgCount := st.plgCount + ep.nPlugins + ep.nPlugins } := by
    rcases hmiss with hb | hm
    · subst hb
      simp [execute, hpend, hbq, List.erase_cons_head]
    · cases bypass with
      | true => simp [execute, hpend, hbq, List.erase_cons_head]
      | false => simp [execute, hm, hpend, hbq, List.erase_cons_head]
  rw [e1]
  refine ⟨rfl, rfl, rfl, rfl, rfl, rfl, ?_⟩
  simp [execute, hmiss2, hpend, hbq2, cacheFind, cacheStore]

/-- Witness for C5: a failing call on the empty cache leaves it empty
and in error state; the successful retry caches the fresh result. -/
theorem error_does_not_poison_cache_witness :
    (execute epW "1" bqErrW 5000 false false 0 exStW).cache = exStW.cache
    ∧ cacheFind (execute epW "1" bqOkW 5000 false false 1000
        (execute epW "1" bqErrW 5000 false false 0 exStW)).cache
        (cacheKey epW.name "1") = some ⟨"alice", 1000, 5000⟩ := by
  have h := error_does_not_poison_cache epW "1" "http 500" "alice" bqErrW bqOkW
    5000 false 0 1000 exStW (by decide) rfl (Or.inr rfl) rfl rfl
  exact ⟨h.1, h.2.2.2.2.2.2⟩

/-! ## Deduplication middleware (C3, src/unnamed/part_003 lines 205–241)

`deduplicationMiddleware` keeps a map `pendingRequests` from a request
key to the pending promise.  A call whose key is already present returns
the stored promise without invoking `next()`; otherwise it invokes
`next()`, stores the fresh promise, and deletes the key once the promise
settles.  Promises are modelled by allocation numbers; two callers
holding the same number resolve with the same result object. -/

/-- The request descriptor fields the middleware keys on: `url`,
optional `method` (defaulting to GET) and optional `body` (included only
when truthy, so an absent and an empty body coincide). -/
structure ReqDesc where
  url : String
  method : Option String
  body : Option String
deriving DecidableEq

/-- The `JSON.stringify(\x7burl, method, ...body\x7d)` request key,
modelled as a deterministic encoding of the same three components:
structurally equal descriptors get equal keys. -/
def requestKey (r : ReqDesc) : String :=
  r.url ++ "|" ++ r.method.getD "GET"
    ++ (match r.body with
        | some b => if b = "" then "" else "|" ++ b
        | none => "")

/-- State of the deduplication middleware: the pending-request map
(key to promise allocation number), the number of `next()` invocations
so far, and the next fresh promise number. -/
structure DedupState where
  pendingRequests : List (String × Nat)
  nextCalls : Nat
  freshId : Nat
deriving DecidableEq

/-- One call entering the middleware with a given key: if the key is
pending, return the stored promise and do not invoke `next()`; otherwise
invoke `next()` (one more call), store the fresh promise under the key
and return it.  The result is the new state, the promise handed to the
caller, and whether `next()` was invoked. -/
def dedupCall (st : DedupState) (key : String) : DedupState × Nat × Bool :=
  match st.pendingRequests.find? (fun kv => kv.1 == key) with
  | some kv => (st, kv.2, false)
  | none =>
      ({ pendingRequests := (key, st.freshId) :: st.pendingRequests,
         nextCalls := st.nextCalls + 1,
         freshId := st.freshId + 1 }, st.freshId, true)

/-- The `finally` clause: once the promise settles, its key is deleted
from the pending map. -/
def dedupComplete (st : DedupState) (key : String) : DedupState :=
  { st with pendingRequests := st.pendingRequests.filter (fun kv => kv.1 != key) }

/-- C3: with a key not yet in flight, the first call invokes `next()`
(one `baseQuery` execution) and the second call, arriving before the
first completes, invokes nothing and receives the very same promise,
so both callers resolve with the same result object; moreover the
pending map never holds two entries for one key: distinctness of its
keys is preserved by calls and completions. -/
theorem dedup_single_flight (st : DedupState) (key : String)
    (hfresh : st.pendingRequests.find? (fun kv => kv.1 == key) = none) :
    (dedupCall st key).2.2 = true
    ∧ (dedupCall (dedupCall st key).1 key).2.2 = false
    ∧ (dedupCall (dedupCall st key).1 key).2.1 = (dedupCall st key).2.1
    ∧ (dedupCall (dedupCall st key).1 key).1 = (dedupCall st key).1
    ∧ (dedupCall (dedupCall st key).1 key).1.nextCalls = st.nextCalls + 1
    ∧ ((st.pendingRequests.map Prod.fst).Nodup →
        ∀ k2, (((dedupCall st k2).1.pendingRequests.map Prod.fst).Nodup
          ∧ ((dedupComplete st k2).pendingRequests.map Prod.fst).Nodup)) := by
  refine ⟨?_, ?_, ?_, ?_, ?_, ?_⟩
  · simp [dedupCall, hfresh]
  · simp [dedupCall, hfresh]
  · simp [dedupCall, hfresh]
  · simp [dedupCall, hfresh]
  · simp [dedupCall, hfresh]
  · intro hnd k2
    constructor
    · cases hf : st.pendingRequests.find? (fun kv => kv.1 == k2) with
      | some kv => simp [dedupCall, hf, hnd]
      | none =>
          have hnot : k2 ∉ st.pendingRequests.map Prod.fst := by
            rw [List.find?_eq_none] at hf
            intro hmem
            rcases List.mem_map.mp hmem with ⟨kv, hkv, hk⟩
            exact hf kv hkv (by simp [hk])
          simp [dedupCall, hf, List.nodup_cons, hnd, hnot]
    · refine List.Nodup.sublist ?_ hnd
      exact List.Sublist.map Prod.fst (List.filter_sublist _)

/-- Witness for C3: two concurrent calls for one concrete key on the
empty pending map. -/
theorem dedup_single_flight_witness :
    (dedupCall ⟨[], 0, 0⟩ "u").2.2 = true
    ∧ (dedupCall (dedupCall ⟨[], 0, 0⟩ "u").1 "u").2.2 = false
    ∧ (dedupCall (dedupCall ⟨[], 0, 0⟩ "u").1 "u").2.1
        = (dedupCall ⟨[], 0, 0⟩ "u").2.1 := by
  have h := dedup_single_flight ⟨[], 0, 0⟩ "u" rfl
  exact ⟨h.1, h.2.1, h.2.2.1⟩
